import Mathlib

/-!
Shallow embedding of `layer-aware-pointer-events` (`src/lib/index.ts`).

The library queries the rendering engine's hit-testing primitive at a
coordinate, normalizes a rendering-engine divergence around Shadow DOM
boundaries, builds a parent-indexed hierarchy (`ElementTree`) of the
elements found, and redispatches cloned pointer events to the layered
elements that native bubbling would skip.

Modelling choices:

* `Element` values are abstract handles (`Nat`).
* A `DocumentOrShadowRoot` (`DOR`) is either the top-level document or a
  shadow root.  A real shadow root carries its host element together with
  the result of `findRootNode(host)`; since a real DOM has finitely nested
  shadow roots, that chain is represented inductively.  The constructor
  `shadowDetached` stands for a shadow root whose host's root node is not a
  `DocumentOrShadowRoot` (the defensive error path of the source).
* The remaining DOM and style state the source consults — the hit-test
  primitive `elementsFromPoint`, `document.documentElement`,
  `getComputedStyle(...).pointerEvents === 'none'`, `parentElement`,
  `element.shadowRoot`, and `findRootNode` on an arbitrary element — is an
  explicit environment `DomEnv` of pure functions, matching the spec's
  treatment of these as black-box capability interfaces.
* Loops of the source that terminate only because a real DOM is finite
  (the tree builder's recursion over shadow scopes, the `parentElement`
  walk, and the recursive flatten/default-path helpers) take an explicit
  fuel argument; exhausted fuel is the distinguished result
  `Err.outOfFuel`, which no theorem ever treats as a source behavior.
* Thrown JS exceptions are `Except.error` values; event dispatch side
  effects are modelled by returning the ordered list of elements that
  received a synthesized event, plus whether `preventDefault` was invoked
  on the original event.  Whether the handlers on an element cancel the
  synthesized clone dispatched to it is the environment `cancels`.
-/

namespace LayerAware

/-- Abstract handle for a DOM `Element`. -/
abbrev Element := Nat

/-- A `DocumentOrShadowRoot`: the top-level document, or a shadow root with
its host element and the host's root node (itself a `DocumentOrShadowRoot`
in any well-formed DOM; `shadowDetached` models a host whose root node is
not a `DocumentOrShadowRoot`, the source's defensive error case). -/
inductive DOR where
  | doc : DOR
  | shadow (host : Element) (hostRoot : DOR) : DOR
  | shadowDetached (host : Element) : DOR
deriving DecidableEq, Repr

/-- Result of `findRootNode` on an element: either a
`DocumentOrShadowRoot`, or some other node. -/
inductive RootNodeRes where
  | isDor (dom : DOR)
  | notDor
deriving DecidableEq, Repr

/-- The DOM / style state read by the library, as pure functions: the
document's root element (`document.documentElement`), the engine hit-test
primitive `elementsFromPoint` (per coordinate and scope, topmost first),
the computed-style check `pointerEvents === 'none'`, `parentElement`,
the open shadow root attached to an element (if any), and `findRootNode`.
All queries in one invocation see the same frozen snapshot, matching the
source's synchronous, single-threaded execution. -/
structure DomEnv where
  documentElement : Element
  hitTest : Int → Int → DOR → List Element
  peNone : Element → Bool
  parentElement : Element → Option Element
  shadowRootOf : Element → Option DOR
  rootNodeOf : Element → RootNodeRes

/-- `engineIndependentElementsFromPoint` (src/lib/index.ts lines 223-257).
Returns the scope's own hit-test list when the scope is the document or
when that list already walked out to `document.documentElement`; otherwise
(Gecko divergence) recursively queries the scope that owns the host
element and concatenates, dropping the host from the front of the outer
list when the host has `pointer-events: none`.  A host whose root node is
not a `DocumentOrShadowRoot` raises. -/
def engineIndependentElementsFromPoint (env : DomEnv) (x y : Int) :
    DOR → Except String (List Element)
  | DOR.doc => .ok (env.hitTest x y DOR.doc)
  | DOR.shadowDetached host =>
      let elements := env.hitTest x y (DOR.shadowDetached host)
      if elements.getLast? = some env.documentElement then .ok elements
      else .error "Expected root node to be a DocumentOrShadowRoot"
  | DOR.shadow host hostRoot =>
      let elements := env.hitTest x y (DOR.shadow host hostRoot)
      if elements.getLast? = some env.documentElement then .ok elements
      else
        match engineIndependentElementsFromPoint env x y hostRoot with
        | .error msg => .error msg
        | .ok higherElements =>
            if env.peNone host ∧ higherElements.head? = some host then
              .ok (elements ++ higherElements.drop 1)
            else .ok (elements ++ higherElements)

/-- Environment with one shadow root whose host `4` has
`pointer-events: none`: the shadow scope's own hit-test yields `[5]`, the
document's yields `[4, 0]`, `0` being `document.documentElement`. -/
def c2Env : DomEnv where
  documentElement := 0
  hitTest := fun _ _ d =>
    match d with
    | .doc => [4, 0]
    | .shadow 4 .doc => [5]
    | _ => []
  peNone := fun e => e == 4
  parentElement := fun _ => none
  shadowRootOf := fun _ => none
  rootNodeOf := fun _ => .notDor

example :
    engineIndependentElementsFromPoint c2Env 0 0 (.shadow 4 .doc) = .ok [5, 0] := rfl

/-- Environment like `c2Env` but where the shadow scope's own hit-test at
the point is empty. -/
def c10Env : DomEnv where
  documentElement := 0
  hitTest := fun _ _ d =>
    match d with
    | .doc => [4, 0]
    | _ => []
  peNone := fun e => e == 4
  parentElement := fun _ => none
  shadowRootOf := fun _ => none
  rootNodeOf := fun _ => .notDor

/-- Failures during a model run: a thrown JS error, or exhaustion of the
fuel that stands in for the finiteness of a real DOM. -/
inductive Err where
  | thrown (msg : String)
  | outOfFuel
deriving DecidableEq, Repr

/-- The `elementsByParent` map: parent element to its ordered child list
(earlier children sit above later children).  JS `Map` insertion order is
kept by representing it as an association list with unique keys. -/
abbrev ParentMap := List (Element × List Element)

/-- `Map.get`: the child list stored under `k`, if any. -/
def mapGet (m : ParentMap) (k : Element) : Option (List Element) :=
  match m with
  | [] => none
  | (k2, l) :: rest => if k2 = k then some l else mapGet rest k

/-- `addToKeyedList` (src/lib/index.ts lines 264-269): push `child` onto
the list stored under `parent`, creating the entry if absent. -/
def addToKeyedList (m : ParentMap) (parent child : Element) : ParentMap :=
  match m with
  | [] => [(parent, [child])]
  | (k, l) :: rest =>
      if k = parent then (k, l ++ [child]) :: rest
      else (k, l) :: addToKeyedList rest parent child

/-- Fuelled `Array.flatMap` for an element-to-list function: concatenates
the images in order; `none` propagates fuel exhaustion from `g`. -/
def flatMapM (g : Element → Option (List Element)) :
    List Element → Option (List Element)
  | [] => some []
  | c :: cs =>
      match g c, flatMapM g cs with
      | some l, some ls => some (l ++ ls)
      | _, _ => none

/-- `flattenElementTree` (src/lib/index.ts lines 114-122): depth-first
post-order flatten — the recursive flattenings of the children stored for
`root` (in their stored stacking order), then `root` itself.  The fuel
argument bounds the recursion depth (a real `ElementTree` is finite). -/
def flattenElementTree (m : ParentMap) : Nat → Element → Option (List Element)
  | 0, _ => none
  | f + 1, root =>
      (flatMapM (flattenElementTree m f) ((mapGet m root).getD [])).map
        (fun children => children ++ [root])

/-- `getDefaultPathElementSet` (src/lib/index.ts lines 93-103): the set
containing `root` plus, recursively, the default-path set of the first
(frontmost) stored child of `root`, if any.  Represented as the list of
its members. -/
def getDefaultPathElementSet (m : ParentMap) : Nat → Element → Option (List Element)
  | 0, _ => none
  | f + 1, root =>
      match ((mapGet m root).getD []).head? with
      | none => some [root]
      | some firstChild =>
          match getDefaultPathElementSet m f firstChild with
          | some sub => some (root :: sub)
          | none => none

/-- The hierarchy produced by `elementTreeFromPoint`. -/
structure ElementTree where
  root : Element
  elementsByParent : ParentMap
deriving DecidableEq, Repr

/-- Mutable state of one `elementTreeFromPoint` invocation: the root found
so far, the parent map, and the two processed sets (sets are represented
as lists; only membership is consulted). -/
structure BuildState where
  root : Option Element
  elementsByParent : ParentMap
  processedElements : List Element
  processedShadowRootElements : List Element
deriving DecidableEq, Repr

/-- Outcome of the source's parent-resolution `while (true)` loop: attach
the current element under `parent`, or record it as the overall root. -/
inductive ResolveOutcome where
  | attach (parent : Element)
  | isRoot
deriving DecidableEq, Repr

/-- The parent-resolution `while (true)` loop of `elementTreeFromPoint`
(src/lib/index.ts lines 176-195): walk `parentElement` from the element;
the first ancestor found in `pp` (the elements later in the current
scope's list) is the attach target; when the chain is exhausted, pop the
nearest enclosing shadow host off `mhpp` and continue walking from it;
when `mhpp` is also empty the element is the root. -/
def resolveLoop (env : DomEnv) (pp : List Element) :
    Option Element → List Element → Nat → Option ResolveOutcome
  | _, _, 0 => none
  | some p, mhpp, f + 1 =>
      if p ∈ pp then some (.attach p)
      else resolveLoop env pp (env.parentElement p) mhpp f
  | none, mhpp, f + 1 =>
      match mhpp.getLast? with
      | some h => resolveLoop env pp (some h) mhpp.dropLast f
      | none => some .isRoot

/-- A pending unit of work inside `elementTreeFromPoint`: enter a scope
(the body of `recurse` before its loop), or continue the loop over the
remaining elements of the current scope's normalized list.
`hpp` is the `higherPotentialParents` chain of enclosing shadow hosts. -/
inductive BuildTask where
  | scope (dom : DOR) (hpp : List Element)
  | elems (remaining : List Element) (hpp : List Element)

/-- The recursive worker `recurse` of `elementTreeFromPoint`
(src/lib/index.ts lines 157-196), with the loop position made explicit.
For each element of the scope's normalized list, in order: skip it if
already processed; if it has an open shadow root that was not yet
expanded, mark it expanded and recurse into that shadow scope with the
host appended to `hpp`; otherwise resolve its parent against the elements
later in the same list via `resolveLoop` and either attach it (also
marking it processed) or record it as the root. -/
def buildGo (env : DomEnv) (x y : Int) :
    Nat → BuildTask → BuildState → Except Err BuildState
  | 0, _, _ => .error .outOfFuel
  | f + 1, .scope dom hpp, st =>
      match engineIndependentElementsFromPoint env x y dom with
      | .error msg => .error (.thrown msg)
      | .ok elements => buildGo env x y f (.elems elements hpp) st
  | _ + 1, .elems [] _, st => .ok st
  | f + 1, .elems (e :: rest) hpp, st =>
      if e ∈ st.processedElements then buildGo env x y f (.elems rest hpp) st
      else
        match
          (if e ∈ st.processedShadowRootElements then none
           else env.shadowRootOf e) with
        | some sr =>
            match
              buildGo env x y f (.scope sr (hpp ++ [e]))
                { st with processedShadowRootElements :=
                    e :: st.processedShadowRootElements } with
            | .error er => .error er
            | .ok st2 => buildGo env x y f (.elems rest hpp) st2
        | none =>
            match resolveLoop env rest (env.parentElement e) hpp f with
            | none => .error .outOfFuel
            | some (.attach p) =>
                buildGo env x y f (.elems rest hpp)
                  { st with
                      elementsByParent := addToKeyedList st.elementsByParent p e,
                      processedElements := e :: st.processedElements }
            | some .isRoot =>
                buildGo env x y f (.elems rest hpp) { st with root := some e }

/-- `elementTreeFromPoint` (src/lib/index.ts lines 146-199): run `recurse`
on the top scope with fresh state, then return the tree if a root was
established, `null` (`none`) otherwise. -/
def elementTreeFromPoint (env : DomEnv) (x y : Int) (fuel : Nat) (top : DOR) :
    Except Err (Option ElementTree) :=
  match buildGo env x y fuel (.scope top []) ⟨none, [], [], []⟩ with
  | .error er => .error er
  | .ok st => .ok (st.root.map (fun r => ⟨r, st.elementsByParent⟩))

/-- The fields of the original `MouseEvent` consulted by
`dispatchToUnderlyingElements`: `currentTarget` (`none` when it is not an
`Element`), `defaultPrevented`, and the event coordinates.  The event
`type` string and the init-dict payload of the clones do not affect which
elements are dispatched to, so they are not represented. -/
structure MouseEventModel where
  currentTarget : Option Element
  defaultPrevented : Bool
  x : Int
  y : Int
deriving DecidableEq, Repr

/-- The dispatch loop of `dispatchToUnderlyingElements` (src/lib/index.ts
lines 70-80): walk the flattened subtree in order, skip elements of the
default-path set, dispatch a fresh clone to each remaining element, and
stop immediately — marking the original event default-prevented — as soon
as a clone comes back default-prevented.  Returns the ordered list of
elements that received a clone and whether `event.preventDefault()` ran. -/
def dispatchLoop (cancels : Element → Bool) (dps : List Element) :
    List Element → List Element × Bool
  | [] => ([], false)
  | e :: rest =>
      if e ∈ dps then dispatchLoop cancels dps rest
      else if cancels e then ([e], true)
      else
        match dispatchLoop cancels dps rest with
        | (ds, prevented) => (e :: ds, prevented)

/-- Proof helper: the dispatch loop after the default-path filtering has
been performed. -/
def dispatchGo (cancels : Element → Bool) : List Element → List Element × Bool
  | [] => ([], false)
  | e :: rest =>
      if cancels e then ([e], true)
      else
        match dispatchGo cancels rest with
        | (ds, prevented) => (e :: ds, prevented)

/-- `dispatchToUnderlyingElements` (src/lib/index.ts lines 38-80): return
silently when the event is already default-prevented; raise when
`currentTarget` is not an `Element` or its root node is not a
`DocumentOrShadowRoot`; rebuild the tree at the event coordinates scoped
to that root; return silently when no tree results; otherwise flatten the
subtree at `currentTarget`, compute the default-path set, and run the
dispatch loop. -/
def dispatchToUnderlyingElements (env : DomEnv) (cancels : Element → Bool)
    (fuel : Nat) (event : MouseEventModel) : Except Err (List Element × Bool) :=
  if event.defaultPrevented then .ok ([], false)
  else
    match event.currentTarget with
    | none => .error (.thrown "Expected event.currentTarget to be an Element")
    | some currentTarget =>
        match env.rootNodeOf currentTarget with
        | .notDor => .error (.thrown "Expected root node to be a DocumentOrShadowRoot")
        | .isDor dom =>
            match elementTreeFromPoint env event.x event.y fuel dom with
            | .error er => .error er
            | .ok none => .ok ([], false)
            | .ok (some tree) =>
                match flattenElementTree tree.elementsByParent fuel currentTarget,
                      getDefaultPathElementSet tree.elementsByParent fuel currentTarget with
                | some subtree, some dps => .ok (dispatchLoop cancels dps subtree)
                | _, _ => .error .outOfFuel

/-- Demonstration environment used by the witnesses: the README structure
`html(0) > body(1) > container(2) > \x7bbackground(3), foreground(4)\x7d`,
all five elements stacked at the query point, foreground on top. -/
def demoEnv : DomEnv where
  documentElement := 0
  hitTest := fun _ _ d =>
    match d with
    | .doc => [4, 3, 2, 1, 0]
    | _ => []
  peNone := fun _ => false
  parentElement := fun e =>
    match e with
    | 4 => some 2
    | 3 => some 2
    | 2 => some 1
    | 1 => some 0
    | _ => none
  shadowRootOf := fun _ => none
  rootNodeOf := fun e => if e = 0 ∨ e = 1 ∨ e = 2 ∨ e = 3 ∨ e = 4 then .isDor .doc else .notDor

/-- The event the README attaches the handler for: bubbled to the
container element `2`. -/
def demoEvent : MouseEventModel := ⟨some 2, false, 0, 0⟩

example :
    elementTreeFromPoint demoEnv 0 0 20 .doc =
      .ok (some ⟨0, [(2, [4, 3]), (1, [2]), (0, [1])]⟩) := rfl

example :
    flattenElementTree [(2, [4, 3]), (1, [2]), (0, [1])] 20 2 = some [4, 3, 2] := rfl

example :
    getDefaultPathElementSet [(2, [4, 3]), (1, [2]), (0, [1])] 20 2 = some [2, 4] := rfl

example :
    dispatchToUnderlyingElements demoEnv (fun _ => false) 20 demoEvent =
      .ok ([3], false) := rfl

example :
    dispatchToUnderlyingElements demoEnv (fun e => e == 3) 20 demoEvent =
      .ok ([3], true) := rfl

/-- Claim C2, counterexample.  In `c2Env` the shadow scope `[5]` does not
end in the document's root element `0`, so the recursive branch runs and
the recursive query of the parent scope returns `[4, 0]`; but the actual
result is `[5, 0]`, not the claimed concatenation `[5] ++ [4, 0]`,
because the host `4` has `pointer-events: none` and heads the outer list,
so it is dropped before concatenation. -/
theorem c2_concat_claim_fails :
    c2Env.hitTest 0 0 (.shadow 4 .doc) = [5]
    ∧ ([5] : List Element).getLast? ≠ some c2Env.documentElement
    ∧ engineIndependentElementsFromPoint c2Env 0 0 .doc = .ok [4, 0]
    ∧ engineIndependentElementsFromPoint c2Env 0 0 (.shadow 4 .doc) = .ok [5, 0]
    ∧ ([5, 0] : List Element) ≠ [5] ++ [4, 0] :=
  ⟨rfl, by decide, rfl, rfl, by decide⟩

/-- Claim C2, amended.  `engineIndependentElementsFromPoint` returns the
host hit-test's list unmodified when the scope is the top-level document
or when the last entry of that list is the document's root element;
otherwise it recursively queries the scope owning the current scope's
host element and returns `[inner list] ++ [outer list]`, except that the
outer list first has its head dropped when that head is the scope's host
and the host's computed `pointer-events` style is `none`. -/
theorem engineIndependentElementsFromPoint_branches (env : DomEnv) (x y : Int) :
    (engineIndependentElementsFromPoint env x y .doc = .ok (env.hitTest x y .doc))
    ∧ (∀ dom : DOR, (env.hitTest x y dom).getLast? = some env.documentElement →
        engineIndependentElementsFromPoint env x y dom = .ok (env.hitTest x y dom))
    ∧ (∀ (host : Element) (hostRoot : DOR) (outer : List Element),
        (env.hitTest x y (.shadow host hostRoot)).getLast? ≠ some env.documentElement →
        engineIndependentElementsFromPoint env x y hostRoot = .ok outer →
        engineIndependentElementsFromPoint env x y (.shadow host hostRoot) =
          .ok (env.hitTest x y (.shadow host hostRoot) ++
            (if env.peNone host ∧ outer.head? = some host then outer.drop 1
             else outer))) := by
  refine ⟨rfl, ?_, ?_⟩
  · intro dom h
    cases dom with
    | doc => rfl
    | shadow host hostRoot =>
        simp only [engineIndependentElementsFromPoint]
        rw [if_pos h]
    | shadowDetached host =>
        simp only [engineIndependentElementsFromPoint]
        rw [if_pos h]
  · intro host hostRoot outer hdiv houter
    simp only [engineIndependentElementsFromPoint]
    rw [if_neg hdiv, houter]
    dsimp only
    by_cases hc : env.peNone host ∧ outer.head? = some host
    · rw [if_pos hc, if_pos hc]
    · rw [if_neg hc, if_neg hc]

/-- Claim C2 witness: the amended branch characterization applied in
`c2Env` to the shadow scope hosted by `4`. -/
theorem c2_witness :
    engineIndependentElementsFromPoint c2Env 0 0 (.shadow 4 .doc) =
      .ok ([5] ++ [0]) :=
  (engineIndependentElementsFromPoint_branches c2Env 0 0).2.2 4 .doc [4, 0]
    (by decide) rfl

/-- Claim C5: in the recursive branch, if the shadow host of the queried
scope has computed style `pointer-events: none` and the first (topmost)
element of the recursively obtained outer list is that same host, the
host is dropped from the outer list before concatenation; in all other
cases the outer list is concatenated unmodified. -/
theorem engineIndependentElementsFromPoint_host_trim (env : DomEnv) (x y : Int)
    (host : Element) (hostRoot : DOR) (outer : List Element)
    (hdiv : (env.hitTest x y (.shadow host hostRoot)).getLast? ≠ some env.documentElement)
    (houter : engineIndependentElementsFromPoint env x y hostRoot = .ok outer) :
    (env.peNone host = true → outer.head? = some host →
      engineIndependentElementsFromPoint env x y (.shadow host hostRoot) =
        .ok (env.hitTest x y (.shadow host hostRoot) ++ outer.drop 1))
    ∧ (¬(env.peNone host = true ∧ outer.head? = some host) →
      engineIndependentElementsFromPoint env x y (.shadow host hostRoot) =
        .ok (env.hitTest x y (.shadow host hostRoot) ++ outer)) := by
  constructor
  · intro hpe hhead
    simp only [engineIndependentElementsFromPoint]
    rw [if_neg hdiv, houter]
    dsimp only
    rw [if_pos ⟨hpe, hhead⟩]
  · intro hnc
    simp only [engineIndependentElementsFromPoint]
    rw [if_neg hdiv, houter]
    dsimp only
    rw [if_neg hnc]

/-- Claim C5 witness: both branches exercised in `c2Env` — the trimming
branch at the `pointer-events: none` host `4`, and the unmodified branch
in a variant whose host `7` does not head the outer list. -/
theorem c5_witness :
    engineIndependentElementsFromPoint c2Env 0 0 (.shadow 4 .doc) =
      .ok ([5] ++ [0])
    ∧ engineIndependentElementsFromPoint c2Env 0 0 (.shadow 7 (.shadow 4 .doc)) =
      .ok ([] ++ [5, 0]) :=
  ⟨(engineIndependentElementsFromPoint_host_trim c2Env 0 0 4 .doc [4, 0]
      (by decide) rfl).1 rfl rfl,
   (engineIndependentElementsFromPoint_host_trim c2Env 0 0 7 (.shadow 4 .doc) [5, 0]
      (by decide) rfl).2 (by decide)⟩

/-- Claim C10, counterexample.  In `c10Env` the shadow scope's own
hit-test is empty and the recursively normalized outer-scope list is
`[4, 0]`, yet the result is `[0]`, not `[] ++ [4, 0]`: the host `4` has
`pointer-events: none` and heads the outer list, so it is dropped before
concatenation. -/
theorem c10_concat_claim_fails :
    c10Env.hitTest 0 0 (.shadow 4 .doc) = []
    ∧ engineIndependentElementsFromPoint c10Env 0 0 .doc = .ok [4, 0]
    ∧ engineIndependentElementsFromPoint c10Env 0 0 (.shadow 4 .doc) = .ok [0]
    ∧ ([0] : List Element) ≠ [] ++ [4, 0] :=
  ⟨rfl, rfl, rfl, by decide⟩

/-- Claim C10, amended.  For every shadow scope whose own hit-test list is
empty, the list has no last entry equal to the document's root element,
so the divergence branch is taken: the result is the recursively
normalized outer-scope list — with its head dropped when that head is the
scope's host and the host has `pointer-events: none` — appended after the
empty inner list. -/
theorem engineIndependentElementsFromPoint_empty_inner (env : DomEnv) (x y : Int)
    (host : Element) (hostRoot : DOR) (outer : List Element)
    (hempty : env.hitTest x y (.shadow host hostRoot) = [])
    (houter : engineIndependentElementsFromPoint env x y hostRoot = .ok outer) :
    engineIndependentElementsFromPoint env x y (.shadow host hostRoot) =
      .ok ([] ++
        (if env.peNone host ∧ outer.head? = some host then outer.drop 1
         else outer)) := by
  simp only [engineIndependentElementsFromPoint]
  rw [hempty, houter]
  rw [if_neg (by simp)]
  dsimp only
  by_cases hc : env.peNone host ∧ outer.head? = some host
  · rw [if_pos hc, if_pos hc]
  · rw [if_neg hc, if_neg hc]

/-- Claim C10 witness: the empty-inner divergence applied in `c10Env`. -/
theorem c10_witness :
    engineIndependentElementsFromPoint c10Env 0 0 (.shadow 4 .doc) =
      .ok ([] ++ [0]) :=
  engineIndependentElementsFromPoint_empty_inner c10Env 0 0 4 .doc [4, 0] rfl rfl

/-- Claim C8: `engineIndependentElementsFromPoint` raises when, in the
divergence branch, the root node of the queried shadow root's host is not
a `DocumentOrShadowRoot`; and `dispatchToUnderlyingElements` raises when
the root node resolved from `currentTarget` is not a
`DocumentOrShadowRoot`.  In the model `RootNodeRes` has exactly the
accepted case `isDor` (top-level document or shadow root) and the
rejected case `notDor`, so no other scope value is accepted. -/
theorem invalid_scope_raises :
    (∀ (env : DomEnv) (x y : Int) (host : Element),
      (env.hitTest x y (.shadowDetached host)).getLast? ≠ some env.documentElement →
      engineIndependentElementsFromPoint env x y (.shadowDetached host) =
        .error "Expected root node to be a DocumentOrShadowRoot")
    ∧ (∀ (env : DomEnv) (cancels : Element → Bool) (fuel : Nat)
        (event : MouseEventModel) (ct : Element),
      event.defaultPrevented = false → event.currentTarget = some ct →
      env.rootNodeOf ct = .notDor →
      dispatchToUnderlyingElements env cancels fuel event =
        .error (.thrown "Expected root node to be a DocumentOrShadowRoot")) := by
  constructor
  · intro env x y host h
    simp only [engineIndependentElementsFromPoint]
    rw [if_neg h]
  · intro env cancels fuel event ct h1 h2 h3
    simp only [dispatchToUnderlyingElements]
    rw [h1, h2]
    dsimp only
    rw [h3]
    rfl

/-- Claim C8 witness: both raising paths exercised in `c2Env`, whose
`rootNodeOf` never yields a `DocumentOrShadowRoot`. -/
theorem c8_witness :
    engineIndependentElementsFromPoint c2Env 0 0 (.shadowDetached 9) =
      .error "Expected root node to be a DocumentOrShadowRoot"
    ∧ dispatchToUnderlyingElements c2Env (fun _ => false) 5 ⟨some 7, false, 0, 0⟩ =
      .error (.thrown "Expected root node to be a DocumentOrShadowRoot") :=
  ⟨invalid_scope_raises.1 c2Env 0 0 9 (by decide),
   invalid_scope_raises.2 c2Env (fun _ => false) 5 ⟨some 7, false, 0, 0⟩ 7 rfl rfl rfl⟩

/-- Proof helper: pointwise success-monotonicity transfers through
`flatMapM`. -/
theorem flatMapM_mono_of (g g2 : Element → Option (List Element))
    (hg : ∀ a l, g a = some l → g2 a = some l) :
    ∀ (cs : List Element) (ls : List Element),
      flatMapM g cs = some ls → flatMapM g2 cs = some ls := by
  intro cs
  induction cs with
  | nil => intro ls h; exact h
  | cons c cs ih =>
      intro ls h
      simp only [flatMapM] at h ⊢
      cases hc : g c with
      | none => rw [hc] at h; exact absurd h (by simp)
      | some l =>
          rw [hc] at h
          cases hrest : flatMapM g cs with
          | none => rw [hrest] at h; exact absurd h (by simp)
          | some ls2 =>
              rw [hrest] at h
              rw [hg c l hc, ih ls2 hrest]
              exact h

/-- Proof helper: a successful flatten stays the same at higher fuel. -/
theorem flattenElementTree_mono :
    ∀ (f : Nat) (m : ParentMap) (root : Element) (l : List Element),
      flattenElementTree m f root = some l →
      flattenElementTree m (f + 1) root = some l := by
  intro f
  induction f with
  | zero => intro m root l h; exact absurd h (by simp [flattenElementTree])
  | succ f ih =>
      intro m root l h
      simp only [flattenElementTree] at h
      cases hfm : flatMapM (flattenElementTree m f) ((mapGet m root).getD []) with
      | none => rw [hfm] at h; exact absurd h (by simp)
      | some ls =>
          rw [hfm] at h
          have hunfold : flattenElementTree m (f + 1 + 1) root =
              (flatMapM (flattenElementTree m (f + 1)) ((mapGet m root).getD [])).map
                (fun children => children ++ [root]) := rfl
          rw [hunfold,
            flatMapM_mono_of _ _ (fun a l' hl' => ih m a l' hl') _ ls hfm]
          exact h

/-- Claim C7: every successful `flattenElementTree` run is the depth-first
post-order sequence — the concatenation (via `flatMapM`) of the recursive
flattenings of the root's stored children, in their stored stacking
order, followed by the root itself as the last element; and a node with
no entry in the map flattens to the one-element list containing itself. -/
theorem flattenElementTree_postorder (m : ParentMap) (f : Nat) :
    (∀ (root : Element) (l : List Element),
      flattenElementTree m (f + 1) root = some l →
      ∃ ls, flatMapM (flattenElementTree m (f + 1)) ((mapGet m root).getD []) = some ls
        ∧ l = ls ++ [root])
    ∧ (∀ root : Element, mapGet m root = none →
      flattenElementTree m (f + 1) root = some [root]) := by
  constructor
  · intro root l h
    simp only [flattenElementTree] at h
    cases hfm : flatMapM (flattenElementTree m f) ((mapGet m root).getD []) with
    | none => rw [hfm] at h; exact absurd h (by simp)
    | some ls =>
        rw [hfm] at h
        refine ⟨ls,
          flatMapM_mono_of _ _ (fun a l' hl' => flattenElementTree_mono f m a l' hl')
            _ ls hfm, ?_⟩
        simp only [Option.map_some', Option.some.injEq] at h
        exact h.symm
  · intro root h
    simp [flattenElementTree, h, flatMapM]

/-- Claim C7 witness: in the map `0 ↦ [1, 2]`, flattening `0` decomposes
into the children's flattenings followed by `0`, and the childless node
`3` flattens to `[3]`. -/
theorem c7_witness :
    (∃ ls, flatMapM (flattenElementTree [(0, [1, 2])] 4)
        ((mapGet [(0, [1, 2])] 0).getD []) = some ls ∧ [1, 2, 0] = ls ++ [0])
    ∧ flattenElementTree [(0, [1, 2])] 4 3 = some [3] :=
  ⟨(flattenElementTree_postorder [(0, [1, 2])] 3).1 0 [1, 2, 0] rfl,
   (flattenElementTree_postorder [(0, [1, 2])] 3).2 3 rfl⟩

/-- Claim C9, counterexample.  An event whose `currentTarget` is not an
`Element` but whose default action is already marked prevented does not
make `dispatchToUnderlyingElements` raise: the default-prevented check
runs first and returns silently. -/
theorem c9_nonElement_no_raise :
    (⟨none, true, 0, 0⟩ : MouseEventModel).currentTarget = none
    ∧ dispatchToUnderlyingElements c2Env (fun _ => false) 5 ⟨none, true, 0, 0⟩ =
        .ok ([], false)
    ∧ ∀ msg : Err,
        dispatchToUnderlyingElements c2Env (fun _ => false) 5 ⟨none, true, 0, 0⟩ ≠
          .error msg := by
  refine ⟨rfl, rfl, ?_⟩
  intro msg h
  rw [show dispatchToUnderlyingElements c2Env (fun _ => false) 5 ⟨none, true, 0, 0⟩ =
        .ok ([], false) from rfl] at h
  exact Except.noConfusion h

/-- Claim C9, amended.  `dispatchToUnderlyingElements` returns silently —
no tree build, no dispatch, original event untouched — whenever the
incoming event's default action is already marked prevented (this check
runs first), and raises an error when the event is not already
default-prevented and `event.currentTarget` is not an `Element`. -/
theorem dispatchToUnderlyingElements_preconditions :
    (∀ (env : DomEnv) (cancels : Element → Bool) (fuel : Nat)
        (event : MouseEventModel), event.defaultPrevented = true →
      dispatchToUnderlyingElements env cancels fuel event = .ok ([], false))
    ∧ (∀ (env : DomEnv) (cancels : Element → Bool) (fuel : Nat)
        (event : MouseEventModel),
      event.defaultPrevented = false → event.currentTarget = none →
      dispatchToUnderlyingElements env cancels fuel event =
        .error (.thrown "Expected event.currentTarget to be an Element")) := by
  constructor
  · intro env cancels fuel event h
    simp [dispatchToUnderlyingElements, h]
  · intro env cancels fuel event h1 h2
    simp only [dispatchToUnderlyingElements]
    rw [h1, h2]
    rfl

/-- Claim C9 witness: both precondition paths exercised in `c2Env`. -/
theorem c9_witness :
    dispatchToUnderlyingElements c2Env (fun _ => false) 5 ⟨some 1, true, 0, 0⟩ =
      .ok ([], false)
    ∧ dispatchToUnderlyingElements c2Env (fun _ => false) 5 ⟨none, false, 0, 0⟩ =
      .error (.thrown "Expected event.currentTarget to be an Element") :=
  ⟨dispatchToUnderlyingElements_preconditions.1 c2Env (fun _ => false) 5
     ⟨some 1, true, 0, 0⟩ rfl,
   dispatchToUnderlyingElements_preconditions.2 c2Env (fun _ => false) 5
     ⟨none, false, 0, 0⟩ rfl rfl⟩

/-- Proof helper: when no dispatched element cancels, the dispatch loop
delivers exactly the default-path-filtered list, in order, and never
calls `preventDefault` on the original event. -/
theorem dispatchLoop_no_cancel (cancels : Element → Bool) (dps : List Element) :
    ∀ l : List Element, (∀ e ∈ l, cancels e = false) →
      dispatchLoop cancels dps l =
        (l.filter (fun e => decide (e ∉ dps)), false) := by
  intro l
  induction l with
  | nil => intro _; rfl
  | cons e rest ih =>
      intro h
      have hrest := ih (fun x hx => h x (List.mem_cons_of_mem e hx))
      have he : cancels e = false := h e (List.mem_cons_self e rest)
      by_cases hd : e ∈ dps
      · simp [dispatchLoop, List.filter_cons, hd, hrest]
      · simp [dispatchLoop, List.filter_cons, hd, he, hrest]

/-- Proof helper: the dispatch loop is the post-filter loop applied to the
default-path-filtered list. -/
theorem dispatchLoop_eq_go (cancels : Element → Bool) (dps : List Element) :
    ∀ l : List Element,
      dispatchLoop cancels dps l =
        dispatchGo cancels (l.filter (fun e => decide (e ∉ dps))) := by
  intro l
  induction l with
  | nil => rfl
  | cons e rest ih =>
      by_cases hd : e ∈ dps
      · simp [dispatchLoop, List.filter_cons, hd, ih]
      · simp [dispatchLoop, dispatchGo, List.filter_cons, hd, ih]

/-- Proof helper: the post-filter loop stops at the first cancelling
element and reports the original event as default-prevented. -/
theorem dispatchGo_cancel (cancels : Element → Bool) :
    ∀ (pre : List Element) (e : Element) (post : List Element),
      (∀ x ∈ pre, cancels x = false) → cancels e = true →
      dispatchGo cancels (pre ++ e :: post) = (pre ++ [e], true) := by
  intro pre
  induction pre with
  | nil => intro e post _ hce; simp [dispatchGo, hce]
  | cons a pre ih =>
      intro e post hpre hce
      have ha : cancels a = false := hpre a (List.mem_cons_self a pre)
      have htail := ih e post (fun x hx => hpre x (List.mem_cons_of_mem a hx)) hce
      simp [dispatchGo, ha, htail]

/-- Claim C1: when the preconditions hold (`currentTarget` is an `Element`
whose root node is a `DocumentOrShadowRoot`, the event is not already
default-prevented, a tree is built, and the flatten/default-path
computations have enough fuel) and no synthesized dispatch is cancelled,
the sequence of elements that receive a synthesized event is exactly the
depth-first flattening of the tree subtree rooted at `currentTarget`
minus the default-path set, in the flattened front-to-back order, and the
original event is not marked default-prevented. -/
theorem dispatchToUnderlyingElements_delivers (env : DomEnv)
    (cancels : Element → Bool) (fuel : Nat) (event : MouseEventModel)
    (ct : Element) (dom : DOR) (tree : ElementTree)
    (subtree dps : List Element)
    (h1 : event.defaultPrevented = false)
    (h2 : event.currentTarget = some ct)
    (h3 : env.rootNodeOf ct = .isDor dom)
    (h4 : elementTreeFromPoint env event.x event.y fuel dom = .ok (some tree))
    (h5 : flattenElementTree tree.elementsByParent fuel ct = some subtree)
    (h6 : getDefaultPathElementSet tree.elementsByParent fuel ct = some dps)
    (h7 : ∀ e ∈ subtree, cancels e = false) :
    dispatchToUnderlyingElements env cancels fuel event =
      .ok (subtree.filter (fun e => decide (e ∉ dps)), false) := by
  simp only [dispatchToUnderlyingElements]
  rw [h1, h2]
  dsimp only
  rw [h3]
  dsimp only
  rw [h4]
  dsimp only
  rw [h5, h6]
  dsimp only
  rw [dispatchLoop_no_cancel cancels dps subtree h7]
  rfl

/-- Claim C1 witness: in `demoEnv`, firing the handler on the container
`2` delivers exactly to the background layer `3` — the flattened subtree
`[4, 3, 2]` minus the default path `\x7b2, 4\x7d` — and the original
event stays unprevented. -/
theorem c1_witness :
    dispatchToUnderlyingElements demoEnv (fun _ => false) 20 demoEvent =
      .ok ([3], false) :=
  dispatchToUnderlyingElements_delivers demoEnv (fun _ => false) 20 demoEvent
    2 .doc ⟨0, [(2, [4, 3]), (1, [2]), (0, [1])]⟩ [4, 3, 2] [2, 4]
    rfl rfl rfl rfl rfl rfl (by decide)

/-- Claim C4: if, during a `dispatchToUnderlyingElements` invocation, the
synthesized event dispatched to some element `e` has its default action
prevented (all earlier dispatched elements not cancelling), then the
original event's default action is marked prevented and the delivered
sequence ends at `e`: no element later in the iteration order receives a
synthesized event. -/
theorem dispatchToUnderlyingElements_cancel_stops (env : DomEnv)
    (cancels : Element → Bool) (fuel : Nat) (event : MouseEventModel)
    (ct : Element) (dom : DOR) (tree : ElementTree)
    (subtree dps pre post : List Element) (e : Element)
    (h1 : event.defaultPrevented = false)
    (h2 : event.currentTarget = some ct)
    (h3 : env.rootNodeOf ct = .isDor dom)
    (h4 : elementTreeFromPoint env event.x event.y fuel dom = .ok (some tree))
    (h5 : flattenElementTree tree.elementsByParent fuel ct = some subtree)
    (h6 : getDefaultPathElementSet tree.elementsByParent fuel ct = some dps)
    (h7 : subtree.filter (fun x => decide (x ∉ dps)) = pre ++ e :: post)
    (h8 : ∀ x ∈ pre, cancels x = false)
    (h9 : cancels e = true) :
    dispatchToUnderlyingElements env cancels fuel event =
      .ok (pre ++ [e], true) := by
  simp only [dispatchToUnderlyingElements]
  rw [h1, h2]
  dsimp only
  rw [h3]
  dsimp only
  rw [h4]
  dsimp only
  rw [h5, h6]
  dsimp only
  rw [dispatchLoop_eq_go cancels dps subtree, h7,
    dispatchGo_cancel cancels pre e post h8 h9]
  rfl

/-- Claim C4 witness: in `demoEnv` with a handler on the background layer
`3` cancelling the clone, the delivered sequence is exactly `[3]` and the
original event is marked default-prevented. -/
theorem c4_witness :
    dispatchToUnderlyingElements demoEnv (fun e => e == 3) 20 demoEvent =
      .ok ([3], true) :=
  dispatchToUnderlyingElements_cancel_stops demoEnv (fun e => e == 3) 20 demoEvent
    2 .doc ⟨0, [(2, [4, 3]), (1, [2]), (0, [1])]⟩ [4, 3, 2] [2, 4] [] [] 3
    rfl rfl rfl rfl rfl rfl rfl (by decide) rfl

/-- All child-list entries of a parent map, concatenated in map order. -/
def pmVals (m : ParentMap) : List Element := (m.map Prod.snd).flatten

/-- Proof helper: pushing a child onto a keyed list inserts exactly one
occurrence of the child among the stored values. -/
theorem pmVals_addToKeyedList (m : ParentMap) (p c : Element) :
    List.Perm (pmVals (addToKeyedList m p c)) (c :: pmVals m) := by
  induction m with
  | nil => simp [pmVals, addToKeyedList]
  | cons kv rest ih =>
      obtain ⟨k, l⟩ := kv
      by_cases hk : k = p
      · simp only [addToKeyedList, if_pos hk, pmVals, List.map_cons, List.flatten_cons]
        rw [List.append_assoc]
        exact List.perm_middle.trans (List.Perm.refl _)
      · simp only [addToKeyedList, if_neg hk, pmVals, List.map_cons, List.flatten_cons]
        exact (ih.append_left l).trans List.perm_middle

/-- The construction invariant of `elementTreeFromPoint`: the child lists
hold pairwise-distinct elements overall, and every element stored in a
child list has been marked processed. -/
def BuildInv (st : BuildState) : Prop :=
  (pmVals st.elementsByParent).Nodup ∧
  ∀ e ∈ pmVals st.elementsByParent, e ∈ st.processedElements

/-- Proof helper: every step of the tree builder preserves the
construction invariant — an element is appended to a child list only when
it is not yet processed, and it is marked processed in the same step. -/
theorem buildGo_inv (env : DomEnv) (x y : Int) :
    ∀ (fuel : Nat) (t : BuildTask) (st st' : BuildState),
      buildGo env x y fuel t st = .ok st' → BuildInv st → BuildInv st' := by
  intro fuel
  induction fuel with
  | zero => intro t st st' h _; simp [buildGo] at h
  | succ f ih =>
      intro t st st' h hInv
      cases t with
      | scope dom hpp =>
          simp only [buildGo] at h
          cases heifp : engineIndependentElementsFromPoint env x y dom with
          | error msg => rw [heifp] at h; exact absurd h (by simp)
          | ok elements => rw [heifp] at h; exact ih _ _ _ h hInv
      | elems remaining hpp =>
          cases remaining with
          | nil =>
              simp only [buildGo, Except.ok.injEq] at h
              exact h ▸ hInv
          | cons e rest =>
              simp only [buildGo] at h
              by_cases hproc : e ∈ st.processedElements
              · rw [if_pos hproc] at h
                exact ih _ _ _ h hInv
              · rw [if_neg hproc] at h
                cases hsh : (if e ∈ st.processedShadowRootElements then none
                    else env.shadowRootOf e) with
                | some sr =>
                    rw [hsh] at h
                    dsimp only at h
                    cases hrec : buildGo env x y f (.scope sr (hpp ++ [e]))
                        { st with processedShadowRootElements :=
                            e :: st.processedShadowRootElements } with
                    | error er => rw [hrec] at h; exact absurd h (by simp)
                    | ok st2 =>
                        rw [hrec] at h
                        have hInv2 : BuildInv st2 := ih _ _ _ hrec hInv
                        exact ih _ _ _ h hInv2
                | none =>
                    rw [hsh] at h
                    dsimp only at h
                    cases hres : resolveLoop env rest (env.parentElement e) hpp f with
                    | none => rw [hres] at h; exact absurd h (by simp)
                    | some outcome =>
                        rw [hres] at h
                        cases outcome with
                        | attach p =>
                            refine ih _ _ _ h ⟨?_, ?_⟩
                            · have hperm := pmVals_addToKeyedList st.elementsByParent p e
                              refine hperm.nodup_iff.mpr
                                (List.nodup_cons.mpr ⟨?_, hInv.1⟩)
                              intro hc
                              exact hproc (hInv.2 e hc)
                            · intro z hz
                              have hz2 :=
                                (pmVals_addToKeyedList st.elementsByParent p e).mem_iff.mp hz
                              rcases List.mem_cons.mp hz2 with hz3 | hz3
                              · exact hz3 ▸ List.mem_cons_self _ _
                              · exact List.mem_cons_of_mem e (hInv.2 z hz3)
                        | isRoot => exact ih _ _ _ h hInv

/-- Environment exhibiting an `elementsByParent` cycle through the root.
The document's hit-test list is `[0, 2, 1, 3]` with `parentElement`
pointing `0 ↦ 1`, `2 ↦ 1`, `3 ↦ 2`: the builder attaches `0` and `2`
under `1`, then — no candidate remaining — records `1` as the root
without marking it processed.  Element `3` hosts a shadow root whose
normalized list `[1, 2]` is processed afterwards: the still-unprocessed
`1` has no `parentElement`, so the walk pops the enclosing host `3` and
climbs to `3`'s parent `2`, which is a later entry of the inner list, and
`1` is attached under `2` — making the root `1` a stored child of its own
stored descendant `2`. -/
def cycleEnv : DomEnv where
  documentElement := 2
  hitTest := fun _ _ d =>
    match d with
    | .doc => [0, 2, 1, 3]
    | .shadow 3 .doc => [1, 2]
    | _ => []
  peNone := fun _ => false
  parentElement := fun e =>
    match e with
    | 0 => some 1
    | 2 => some 1
    | 3 => some 2
    | _ => none
  shadowRootOf := fun e => if e = 3 then some (.shadow 3 .doc) else none
  rootNodeOf := fun _ => .notDor

/-- Proof helper: `flatMapM` fails whenever it fails on the tail. -/
theorem flatMapM_none_of_tail (g : Element → Option (List Element))
    (c : Element) (cs : List Element) (h : flatMapM g cs = none) :
    flatMapM g (c :: cs) = none := by
  simp only [flatMapM]
  rw [h]
  cases hgc : g c
  · rfl
  · rfl

/-- Proof helper: in the cyclic map `[(1, [0, 2]), (2, [1])]`, flattening
from `1` or from `2` fails at every fuel — the two nodes demand each
other's flattening forever. -/
theorem cycle_map_flatten_none :
    ∀ f : Nat, flattenElementTree [(1, [0, 2]), (2, [1])] f 1 = none
      ∧ flattenElementTree [(1, [0, 2]), (2, [1])] f 2 = none := by
  intro f
  induction f with
  | zero => exact ⟨rfl, rfl⟩
  | succ f ih =>
      constructor
      · have h2 : flatMapM (flattenElementTree [(1, [0, 2]), (2, [1])] f) [2] = none := by
          simp only [flatMapM]
          rw [ih.2]
        rw [show flattenElementTree [(1, [0, 2]), (2, [1])] (f + 1) 1 =
            (flatMapM (flattenElementTree [(1, [0, 2]), (2, [1])] f) [0, 2]).map
              (fun children => children ++ [1]) from rfl,
          flatMapM_none_of_tail _ 0 [2] h2]
        rfl
      · have h1 : flatMapM (flattenElementTree [(1, [0, 2]), (2, [1])] f) [1] = none := by
          simp only [flatMapM]
          rw [ih.1]
        rw [show flattenElementTree [(1, [0, 2]), (2, [1])] (f + 1) 2 =
            (flatMapM (flattenElementTree [(1, [0, 2]), (2, [1])] f) [1]).map
              (fun children => children ++ [2]) from rfl, h1]
        rfl

/-- Claim C3, counterexample.  In `cycleEnv` the builder returns the tree
with root `1` and map `[(1, [0, 2]), (2, [1])]`: `2` is a stored child of
the root `1`, and the root `1` is in turn a stored child of `2`, so the
root is reachable from itself through a nonempty `elementsByParent` path
— a cycle among elements reachable from `root`, under which the root
occurs both as the root and inside a child list.  The concatenated child
lists are nevertheless duplicate-free, and flattening from the root never
succeeds at any fuel, confirming the cycle is real. -/
theorem c3_cycle_claim_fails :
    elementTreeFromPoint cycleEnv 0 0 20 .doc =
      .ok (some ⟨1, [(1, [0, 2]), (2, [1])]⟩)
    ∧ (2 : Element) ∈ (mapGet [(1, [0, 2]), (2, [1])] 1).getD []
    ∧ (1 : Element) ∈ (mapGet [(1, [0, 2]), (2, [1])] 2).getD []
    ∧ (pmVals [(1, [0, 2]), (2, [1])]).Nodup
    ∧ ∀ f : Nat, flattenElementTree [(1, [0, 2]), (2, [1])] f 1 = none :=
  ⟨rfl, by decide, by decide, by decide, fun f => (cycle_map_flatten_none f).1⟩

/-- Claim C3, amended: in every `ElementTree` returned by
`elementTreeFromPoint`, the concatenation of all child lists is
duplicate-free — no element occurs in more than one child list, no
element occurs twice in one child list, and each element appears under at
most one parent key.  The construction's processed-set enforces exactly
this; it does not by itself exclude `elementsByParent` cycles through the
root (see the counterexample above), which are absent only when the
underlying DOM ancestry is well founded. -/
theorem elementTreeFromPoint_element_once (env : DomEnv) (x y : Int)
    (fuel : Nat) (top : DOR) (tree : ElementTree)
    (h : elementTreeFromPoint env x y fuel top = .ok (some tree)) :
    (pmVals tree.elementsByParent).Nodup := by
  simp only [elementTreeFromPoint] at h
  cases hb : buildGo env x y fuel (.scope top []) ⟨none, [], [], []⟩ with
  | error er => rw [hb] at h; exact absurd h (by simp)
  | ok st =>
      rw [hb] at h
      dsimp only at h
      have hInv : BuildInv st :=
        buildGo_inv env x y fuel _ _ _ hb ⟨by simp [pmVals], by simp [pmVals]⟩
      cases hr : st.root with
      | none => rw [hr] at h; exact absurd h (by simp)
      | some r =>
          rw [hr] at h
          simp only [Option.map_some', Except.ok.injEq, Option.some.injEq] at h
          rw [← h]
          exact hInv.1

/-- Claim C3 witness: the tree built in `demoEnv` stores each element
under exactly one parent, once. -/
theorem c3_witness : (pmVals [(2, [4, 3]), (1, [2]), (0, [1])]).Nodup :=
  elementTreeFromPoint_element_once demoEnv 0 0 20 .doc
    ⟨0, [(2, [4, 3]), (1, [2]), (0, [1])]⟩ rfl

/-- Claim C6: at a coordinate where the normalized query of the top scope
is empty, `elementTreeFromPoint` returns `null` (`none`): the loop body
never runs, so no root is ever established.  (`fuel + 1 + 1` merely
grants the model run enough fuel to enter the scope and finish the empty
loop.) -/
theorem elementTreeFromPoint_none_of_empty (env : DomEnv) (x y : Int)
    (fuel : Nat) (top : DOR)
    (h : engineIndependentElementsFromPoint env x y top = .ok []) :
    elementTreeFromPoint env x y (fuel + 1 + 1) top = .ok none := by
  simp only [elementTreeFromPoint, buildGo]
  rw [h]
  rfl

/-- Environment whose hit-test primitive finds nothing anywhere. -/
def emptyEnv : DomEnv where
  documentElement := 0
  hitTest := fun _ _ _ => []
  peNone := fun _ => false
  parentElement := fun _ => none
  shadowRootOf := fun _ => none
  rootNodeOf := fun _ => .notDor

/-- Claim C6 witness: in `emptyEnv` the tree build yields `none`. -/
theorem c6_witness : elementTreeFromPoint emptyEnv 0 0 7 .doc = .ok none :=
  elementTreeFromPoint_none_of_empty emptyEnv 0 0 5 .doc rfl

end LayerAware
